import Mathlib

/-
Verification development for the document-analysis pipeline of the
AWS-ai-document-analyzer repository.  The embedded code is the processing
Lambda (`handler` and `analyzeContractWithBedrock`): request-body parsing,
document lookup, text extraction (S3 direct read vs. Textract OCR), model
invocation, response interpretation with per-section defaulting and a fixed
fallback analysis, and DynamoDB status/analysis persistence.

Modelling conventions:
- JavaScript runtime values flowing out of `JSON.parse` are modelled by the
  inductive `JsonValue`; property access on non-objects yields `none`
  (i.e. `undefined`), and JS truthiness is `jsTruthy`.
- Numeric literals are modelled as integers (`Int`); fractional literals are
  outside the modelled JSON grammar (every number appearing in the embedded
  code and its defaults is an integer).
- Fallible external calls (S3, Textract, Bedrock, DynamoDB writes) are
  oracles in an `Env`; `Except.error` is a thrown exception.
- A thrown exception that escapes the Lambda handler is `Outcome.thrown`.
- `new Date().toISOString()` is the `now` field of the environment.
-/

namespace DocAnalyzer

/-- The character x7b, written via its code so it never reads as code. -/
def lbrace : Char := Char.ofNat 123

/-- The character x7d. -/
def rbrace : Char := Char.ofNat 125

/-- The double-quote character. -/
def dquote : Char := Char.ofNat 34

/-- The backslash character. -/
def bslash : Char := Char.ofNat 92

/-- Runtime JSON values, as produced by JavaScript JSON.parse. -/
inductive JsonValue where
  | null : JsonValue
  | bool : Bool → JsonValue
  | num : Int → JsonValue
  | str : String → JsonValue
  | arr : List JsonValue → JsonValue
  | obj : List (String × JsonValue) → JsonValue

/-- Skip JSON whitespace. -/
def skipWs : List Char → List Char
  | c :: rest =>
    if c = ' ' ∨ c = Char.ofNat 9 ∨ c = Char.ofNat 10 ∨ c = Char.ofNat 13 then skipWs rest
    else c :: rest
  | [] => []

/-- Value of a hexadecimal digit, if any. -/
def hexDigit (c : Char) : Option Nat :=
  if c.isDigit then some (c.toNat - 48)
  else if 'a' ≤ c ∧ c ≤ 'f' then some (c.toNat - 87)
  else if 'A' ≤ c ∧ c ≤ 'F' then some (c.toNat - 55)
  else none

/-- Parse the body of a JSON string literal (after the opening quote),
accumulating decoded characters in reverse. -/
def pStringAux : List Char → List Char → Option (String × List Char)
  | acc, c :: rest =>
    if c = dquote then some (String.mk acc.reverse, rest)
    else if c = bslash then
      match rest with
      | e :: rest2 =>
        if e = dquote then pStringAux (dquote :: acc) rest2
        else if e = bslash then pStringAux (bslash :: acc) rest2
        else if e = '/' then pStringAux ('/' :: acc) rest2
        else if e = 'n' then pStringAux (Char.ofNat 10 :: acc) rest2
        else if e = 't' then pStringAux (Char.ofNat 9 :: acc) rest2
        else if e = 'r' then pStringAux (Char.ofNat 13 :: acc) rest2
        else if e = 'b' then pStringAux (Char.ofNat 8 :: acc) rest2
        else if e = 'f' then pStringAux (Char.ofNat 12 :: acc) rest2
        else if e = 'u' then
          match rest2 with
          | h1 :: h2 :: h3 :: h4 :: rest3 =>
            match hexDigit h1, hexDigit h2, hexDigit h3, hexDigit h4 with
            | some a, some b, some c2, some d =>
              pStringAux (Char.ofNat (((a * 16 + b) * 16 + c2) * 16 + d) :: acc) rest3
            | _, _, _, _ => none
          | _ => none
        else none
      | [] => none
    else pStringAux (c :: acc) rest
  | _, [] => none

/-- Numeric value of a decimal digit character. -/
def digitVal (c : Char) : Nat := c.toNat - 48

/-- Parse an unsigned JSON integer literal (no leading zeros, no fraction or
exponent: fractional numbers are outside the modelled grammar). -/
def pNumNat (cs : List Char) : Option (Nat × List Char) :=
  let ds := cs.takeWhile Char.isDigit
  let rest := cs.dropWhile Char.isDigit
  if ds.isEmpty then none
  else if ds.head? = some '0' ∧ ds.length > 1 then none
  else
    match rest with
    | r :: _ =>
      if r = '.' ∨ r = 'e' ∨ r = 'E' then none
      else some (ds.foldl (fun a c => a * 10 + digitVal c) 0, rest)
    | [] => some (ds.foldl (fun a c => a * 10 + digitVal c) 0, rest)

/-- Parse a possibly-signed JSON integer literal. -/
def pNum (cs : List Char) : Option (Int × List Char) :=
  match cs with
  | c :: rest =>
    if c = '-' then (pNumNat rest).map (fun p => (-(p.1 : Int), p.2))
    else (pNumNat cs).map (fun p => ((p.1 : Int), p.2))
  | [] => none

mutual

/-- Fuel-based recursive-descent parser for one JSON value. -/
def pVal : Nat → List Char → Option (JsonValue × List Char)
  | 0, _ => none
  | Nat.succ fuel, cs =>
    match skipWs cs with
    | [] => none
    | c :: rest =>
      if c = dquote then (pStringAux [] rest).map (fun p => (JsonValue.str p.1, p.2))
      else if c = '[' then
        match skipWs rest with
        | d :: rest2 =>
          if d = ']' then some (JsonValue.arr [], rest2)
          else pArrItems fuel (d :: rest2) []
        | [] => none
      else if c = lbrace then
        match skipWs rest with
        | d :: rest2 =>
          if d = rbrace then some (JsonValue.obj [], rest2)
          else pObjItems fuel (d :: rest2) []
        | [] => none
      else if c = 'n' then
        match rest with
        | 'u' :: 'l' :: 'l' :: r => some (JsonValue.null, r)
        | _ => none
      else if c = 't' then
        match rest with
        | 'r' :: 'u' :: 'e' :: r => some (JsonValue.bool true, r)
        | _ => none
      else if c = 'f' then
        match rest with
        | 'a' :: 'l' :: 's' :: 'e' :: r => some (JsonValue.bool false, r)
        | _ => none
      else (pNum (c :: rest)).map (fun p => (JsonValue.num p.1, p.2))

/-- Parse the comma-separated items of a non-empty JSON array. -/
def pArrItems : Nat → List Char → List JsonValue → Option (JsonValue × List Char)
  | 0, _, _ => none
  | Nat.succ fuel, cs, acc =>
    match pVal fuel cs with
    | none => none
    | some (v, rest) =>
      match skipWs rest with
      | c :: rest2 =>
        if c = ',' then pArrItems fuel rest2 (v :: acc)
        else if c = ']' then some (JsonValue.arr (v :: acc).reverse, rest2)
        else none
      | [] => none

/-- Parse the comma-separated key-value fields of a non-empty JSON object. -/
def pObjItems : Nat → List Char → List (String × JsonValue) → Option (JsonValue × List Char)
  | 0, _, _ => none
  | Nat.succ fuel, cs, acc =>
    match skipWs cs with
    | c :: rest =>
      if c = dquote then
        match pStringAux [] rest with
        | none => none
        | some (k, rest2) =>
          match skipWs rest2 with
          | d :: rest3 =>
            if d = ':' then
              match pVal fuel rest3 with
              | none => none
              | some (v, rest4) =>
                match skipWs rest4 with
                | e :: rest5 =>
                  if e = ',' then pObjItems fuel rest5 ((k, v) :: acc)
                  else if e = rbrace then some (JsonValue.obj ((k, v) :: acc).reverse, rest5)
                  else none
                | [] => none
            else none
          | [] => none
      else none
    | [] => none

end

/-- Model of JavaScript JSON.parse: parse a whole string as one JSON value,
allowing surrounding whitespace, rejecting trailing content.  `none` models a
thrown SyntaxError. -/
def parseJson (s : String) : Option JsonValue :=
  match pVal (2 * (s.length + 1)) s.toList with
  | some (v, rest) => if (skipWs rest).isEmpty then some v else none
  | none => none

/-- JS property lookup on an object literal: a duplicate key is overwritten,
so the last binding wins. -/
def lookupLast : List (String × JsonValue) → String → Option JsonValue
  | [], _ => none
  | (k, v) :: rest, key =>
    match lookupLast rest key with
    | some r => some r
    | none => if k = key then some v else none

/-- JS property access `v.key`: `none` models `undefined` (which is also what
access on a non-object primitive yields). -/
def getField : JsonValue → String → Option JsonValue
  | JsonValue.obj fields, k => lookupLast fields k
  | _, _ => none

/-- JS truthiness of a runtime value (arrays and objects are always truthy). -/
def jsTruthy : JsonValue → Bool
  | JsonValue.null => false
  | JsonValue.bool b => b
  | JsonValue.num n => n ≠ 0
  | JsonValue.str s => s ≠ ""
  | JsonValue.arr _ => true
  | JsonValue.obj _ => true

/-- The JS expression `parsed.key OR-ELSE d` (logical-or defaulting): the field
value when present and truthy, the default when absent or falsy. -/
def jsorField (v : JsonValue) (k : String) (d : JsonValue) : JsonValue :=
  match getField v k with
  | some x => if jsTruthy x then x else d
  | none => d

/-- The source matches the raw model text against the greedy regex
madeOf openBrace, anyChars, closeBrace: the match, when it exists, runs from
the first opening brace of the text to the last closing brace after it.
Embedded directly via takeWhile/dropWhile so the boundary rule is explicit. -/
def extractJson (s : String) : Option String :=
  let l := s.toList
  let frag := l.dropWhile (· ≠ lbrace)
  let core := (frag.reverse.dropWhile (· ≠ rbrace)).reverse
  if core.isEmpty then none else some (String.mk core)

/-- Modelled from the spec: the spec claims the interpreter locates the first
opening brace and its matching closing brace by brace-depth scanning.  This
definition follows the spec words, for comparison with `extractJson` above
(which embeds the source regex). -/
def braceScan : Nat → List Char → List Char → Option (List Char)
  | depth, acc, c :: rest =>
    if c = lbrace then braceScan (depth + 1) (c :: acc) rest
    else if c = rbrace then
      if depth = 1 then some (c :: acc).reverse
      else braceScan (depth - 1) (c :: acc) rest
    else braceScan depth (c :: acc) rest
  | _, _, [] => none

/-- Modelled from the spec: brace-depth extraction of the first balanced
brace-delimited substring (see `braceScan`). -/
def braceDepthExtract (s : String) : Option String :=
  (braceScan 0 [] (s.toList.dropWhile (· ≠ lbrace))).map String.mk

/-- The structured analysis returned by the interpreter (types/index.ts
`ContractAnalysis`).  Section contents come from unvalidated parsed JSON, so
the section fields carry runtime `JsonValue`s, exactly as the JS object does. -/
structure ContractAnalysis where
  documentId : String
  keyTerms : JsonValue
  riskAssessment : JsonValue
  clauseAnalysis : JsonValue
  complianceCheck : JsonValue
  executiveSummary : JsonValue
  confidenceScore : JsonValue
  processedAt : String

/-- Default risk assessment substituted for a falsy riskAssessment section. -/
def defaultRiskAssessment : JsonValue :=
  JsonValue.obj [("overallRisk", JsonValue.str "medium"), ("risks", JsonValue.arr []),
    ("totalScore", JsonValue.num 50)]

/-- Default compliance section substituted for a falsy complianceCheck. -/
def defaultComplianceCheck : JsonValue :=
  JsonValue.obj [("overallCompliance", JsonValue.num 70), ("missingClauses", JsonValue.arr []),
    ("nonStandardClauses", JsonValue.arr []), ("recommendations", JsonValue.arr [])]

/-- Default executive summary substituted for a falsy executiveSummary. -/
def defaultExecutiveSummary : JsonValue :=
  JsonValue.obj [("overview", JsonValue.str "Analysis completed"),
    ("keyHighlights", JsonValue.arr []), ("majorConcerns", JsonValue.arr []),
    ("recommendation", JsonValue.str "Review recommended")]

/-- The mapped Analysis Result built from a successfully parsed model JSON
object: each section is the parsed field when truthy, its default otherwise
(JS logical-or defaulting, source lines 175-184). -/
def mapAnalysis (parsed : JsonValue) (now : String) : ContractAnalysis :=
  { documentId := ""
    keyTerms := jsorField parsed "keyTerms" (JsonValue.arr [])
    riskAssessment := jsorField parsed "riskAssessment" defaultRiskAssessment
    clauseAnalysis := jsorField parsed "clauseAnalysis" (JsonValue.arr [])
    complianceCheck := jsorField parsed "complianceCheck" defaultComplianceCheck
    executiveSummary := jsorField parsed "executiveSummary" defaultExecutiveSummary
    confidenceScore := jsorField parsed "confidenceScore" (JsonValue.num 75)
    processedAt := now }

/-- The fixed fallback analysis returned when no JSON substring is found or
parsing throws (source lines 191-200). -/
def fallbackAnalysis (now : String) : ContractAnalysis :=
  { documentId := ""
    keyTerms := JsonValue.arr [JsonValue.obj [("type", JsonValue.str "other"),
      ("value", JsonValue.str "Analysis completed"), ("confidence", JsonValue.num 50),
      ("location", JsonValue.str "Document")]]
    riskAssessment := JsonValue.obj [("overallRisk", JsonValue.str "medium"),
      ("risks", JsonValue.arr [JsonValue.obj [("category", JsonValue.str "General"),
        ("description", JsonValue.str "Document processed but detailed analysis unavailable"),
        ("severity", JsonValue.str "medium"),
        ("recommendation", JsonValue.str "Manual review recommended"),
        ("confidence", JsonValue.num 50)]]),
      ("totalScore", JsonValue.num 50)]
    clauseAnalysis := JsonValue.arr [JsonValue.obj [("clauseType", JsonValue.str "General"),
      ("content", JsonValue.str "Document processed"), ("isStandard", JsonValue.bool true),
      ("unusualAspects", JsonValue.arr []),
      ("recommendation", JsonValue.str "Manual review recommended")]]
    complianceCheck := JsonValue.obj [("overallCompliance", JsonValue.num 50),
      ("missingClauses", JsonValue.arr []), ("nonStandardClauses", JsonValue.arr []),
      ("recommendations", JsonValue.arr [JsonValue.str "Manual review recommended"])]
    executiveSummary := JsonValue.obj [("overview", JsonValue.str "Document processed successfully"),
      ("keyHighlights", JsonValue.arr [JsonValue.str "Text extraction completed"]),
      ("majorConcerns", JsonValue.arr [JsonValue.str "Detailed analysis unavailable"]),
      ("recommendation", JsonValue.str "Manual review recommended")]
    confidenceScore := JsonValue.num 50
    processedAt := now }

/-- The Response Interpreter on the model text: extract the regex-matched
substring, parse it, map it; on no match or parse failure return the fixed
fallback.  Total: no exception escapes (source lines 167-200). -/
def interpretText (analysisText : String) (now : String) : ContractAnalysis :=
  match extractJson analysisText with
  | some jsonStr =>
    match parseJson jsonStr with
    | some parsed => mapAnalysis parsed now
    | none => fallbackAnalysis now
  | none => fallbackAnalysis now

/-- The fixed prompt template with the document text embedded verbatim
(source lines 135-148). -/
def buildPrompt (text : String) : String :=
  "Analyze this legal contract and provide a comprehensive analysis in JSON format. Extract key terms, assess risks, analyze clauses, check compliance, and provide an executive summary.\n\nContract text:\n"
    ++ text
    ++ "\n\nPlease respond with a JSON object containing:\n1. keyTerms: Array of extracted terms (parties, dates, amounts, payment terms, obligations)\n2. riskAssessment: Overall risk level and specific risks with recommendations\n3. clauseAnalysis: Analysis of contract clauses, identifying unusual or non-standard elements\n4. complianceCheck: Assessment against standard contract practices\n5. executiveSummary: High-level overview with key highlights and concerns\n6. confidenceScore: Overall confidence in the analysis (0-100)\n\nFocus on practical legal insights that would help a legal professional quickly understand the contract\x27s key aspects and potential issues."

/-- A Textract block: block type and optional line text. -/
structure TextBlock where
  blockType : String
  text : Option String

/-- Concatenation of the LINE blocks of a Textract response, joined by
newline; a block with no Text joins as the empty string, exactly as JS
Array.join renders undefined (source lines 70-73). -/
def joinLineBlocks (blocks : List TextBlock) : String :=
  String.intercalate "\n"
    ((blocks.filter (fun b => b.blockType = "LINE")).map (fun b => b.text.getD ""))

/-- The DynamoDB item for a document, restricted to the attributes the
handler reads or writes.  Every attribute is optional: an UpdateCommand can
upsert an item carrying only some of them. -/
structure DocItem where
  contentType : Option String := none
  s3Key : Option String := none
  status : Option String := none
  analysis : Option ContractAnalysis := none
  processedAt : Option String := none

/-- The external world of one invocation: the DynamoDB table, the S3 /
Textract / Bedrock call outcomes, whether each of the two UpdateCommand call
sites succeeds, and the clock.  `Except.error` models a thrown exception.
For Bedrock, `.ok none` models a response whose envelope lacks
content[0].text (that access throws inside the inner try, which routes to
the fallback); `.ok (some t)` is a response with analysis text `t`. -/
structure Env where
  table : List (String × DocItem)
  s3 : String → Except Unit String
  ocr : String → Except Unit (List TextBlock)
  bedrock : String → Except Unit (Option String)
  updCompletedOk : Bool
  updFailedOk : Bool
  now : String

/-- The Text Source Resolver (source lines 50-74): direct S3 read for
text/plain, Textract LINE-block join otherwise.  The returned flag records
whether the OCR service was invoked.  A missing s3Key makes the SDK call
throw. -/
def resolveText (item : DocItem) (env : Env) : Except Unit (String × Bool) :=
  match item.s3Key with
  | none => Except.error ()
  | some key =>
    if item.contentType = some "text/plain" then
      (env.s3 key).map (fun t => (t, false))
    else
      (env.ocr key).map (fun bs => (joinLineBlocks bs, true))

/-- analyzeContractWithBedrock (source lines 134-201): build the prompt,
invoke the model, interpret the response.  A transport or envelope-decoding
failure throws out of the function; everything past the inner try boundary
degrades to the fallback. -/
def analyzeContractWithBedrock (env : Env) (text : String) : Except Unit ContractAnalysis :=
  match env.bedrock (buildPrompt text) with
  | Except.error _ => Except.error ()
  | Except.ok none => Except.ok (fallbackAnalysis env.now)
  | Except.ok (some analysisText) => Except.ok (interpretText analysisText env.now)

/-- DynamoDB UpdateCommand semantics on the table: partial merge on an
existing item, upsert of a fresh item otherwise. -/
def updateTable (t : List (String × DocItem)) (id : String) (f : DocItem → DocItem) :
    List (String × DocItem) :=
  if (t.lookup id).isSome then
    t.map (fun p => if p.1 = id then (p.1, f p.2) else p)
  else t ++ [(id, f {})]

/-- The completed-path update: SET status, analysis, processedAt
(source lines 80-94). -/
def setCompleted (a : ContractAnalysis) (now : String) (item : DocItem) : DocItem :=
  { item with status := some "completed", analysis := some a, processedAt := some now }

/-- The failure-path update: SET status only; all other attributes, the
analysis included, are left untouched (source lines 112-118). -/
def setFailed (item : DocItem) : DocItem :=
  { item with status := some "failed" }

/-- The HTTP response the handler builds (statusCode and APIResponse body). -/
structure ApiResult where
  statusCode : Nat
  success : Bool
  error : Option String
  data : Option ContractAnalysis

/-- What an invocation produces: a returned response, or an exception that
escaped the handler. -/
inductive Outcome where
  | respond : ApiResult → Outcome
  | thrown : Outcome

/-- The generic failure response every caught error produces
(source lines 122-129). -/
def genericFailure : ApiResult :=
  { statusCode := 500, success := false, error := some "Processing failed", data := none }

/-- The 400 response for a missing document id (source lines 20-27). -/
def missingIdFailure : ApiResult :=
  { statusCode := 400, success := false, error := some "Document ID is required", data := none }

/-- The 404 response for an unknown document id (source lines 37-44). -/
def notFoundFailure : ApiResult :=
  { statusCode := 404, success := false, error := some "Document not found", data := none }

/-- The 200 response carrying the analysis (source lines 96-103). -/
def successResult (a : ContractAnalysis) : ApiResult :=
  { statusCode := 200, success := true, error := none, data := some a }

/-- The JS expression `event.body OR-ELSE emptyObjectLiteral`: a missing or
empty body is replaced by the two-character empty-object text. -/
def rawBody (body : Option String) : String :=
  match body with
  | none => "\x7b\x7d"
  | some s => if s = "" then "\x7b\x7d" else s

/-- The catch block (source lines 105-130): if the raw body is truthy it is
re-parsed (throwing again, and escaping, if malformed or null), and when a
truthy documentId is found the failed-status update is attempted (throwing,
and escaping, if the write fails or the key is not a string); otherwise the
generic 500 response is returned. -/
def catchPath (env : Env) (body : Option String) : Outcome × List (String × DocItem) :=
  match body with
  | none => (Outcome.respond genericFailure, env.table)
  | some s =>
    if s = "" then (Outcome.respond genericFailure, env.table)
    else
      match parseJson s with
      | none => (Outcome.thrown, env.table)
      | some JsonValue.null => (Outcome.thrown, env.table)
      | some v =>
        match getField v "documentId" with
        | none => (Outcome.respond genericFailure, env.table)
        | some d =>
          if jsTruthy d then
            match d with
            | JsonValue.str id =>
              if env.updFailedOk then
                (Outcome.respond genericFailure, updateTable env.table id setFailed)
              else (Outcome.thrown, env.table)
            | _ => (Outcome.thrown, env.table)
          else (Outcome.respond genericFailure, env.table)

/-- The processing Lambda handler (source lines 15-131): parse the request
body, load the document, resolve its text, analyze with Bedrock, persist the
completed record; any thrown step lands in `catchPath`. -/
def handler (env : Env) (body : Option String) : Outcome × List (String × DocItem) :=
  match parseJson (rawBody body) with
  | none => catchPath env body
  | some JsonValue.null => catchPath env body
  | some v =>
    if jsTruthy ((getField v "documentId").getD JsonValue.null) then
      match (getField v "documentId").getD JsonValue.null with
      | JsonValue.str id =>
        match env.table.lookup id with
        | none => (Outcome.respond notFoundFailure, env.table)
        | some document =>
          match resolveText document env with
          | Except.error _ => catchPath env body
          | Except.ok (text, _) =>
            match analyzeContractWithBedrock env text with
            | Except.error _ => catchPath env body
            | Except.ok analysis =>
              if env.updCompletedOk then
                (Outcome.respond (successResult analysis),
                  updateTable env.table id (setCompleted analysis env.now))
              else catchPath env body
      | _ => catchPath env body
    else (Outcome.respond missingIdFailure, env.table)

/-- Domain check for one key term: enumerated type and confidence in 0..100
(types/index.ts KeyTerm). -/
def validKeyTermB (v : JsonValue) : Bool :=
  (match getField v "type" with
   | some (JsonValue.str t) =>
     t = "party" ∨ t = "date" ∨ t = "amount" ∨ t = "payment_term" ∨ t = "obligation" ∨ t = "other"
   | _ => false) &&
  (match getField v "confidence" with
   | some (JsonValue.num n) => 0 ≤ n ∧ n ≤ 100
   | _ => false)

/-- Domain check for one risk entry: enumerated severity and confidence in
0..100 (types/index.ts Risk). -/
def validRiskB (v : JsonValue) : Bool :=
  (match getField v "severity" with
   | some (JsonValue.str t) => t = "low" ∨ t = "medium" ∨ t = "high" ∨ t = "critical"
   | _ => false) &&
  (match getField v "confidence" with
   | some (JsonValue.num n) => 0 ≤ n ∧ n ≤ 100
   | _ => false)

/-- Domain check for the risk assessment section: enumerated overallRisk,
valid risks, totalScore in 0..100 (types/index.ts RiskAssessment). -/
def validRiskAssessmentB (v : JsonValue) : Bool :=
  (match getField v "overallRisk" with
   | some (JsonValue.str t) => t = "low" ∨ t = "medium" ∨ t = "high" ∨ t = "critical"
   | _ => false) &&
  (match getField v "risks" with
   | some (JsonValue.arr rs) => rs.all validRiskB
   | _ => false) &&
  (match getField v "totalScore" with
   | some (JsonValue.num n) => 0 ≤ n ∧ n ≤ 100
   | _ => false)

/-- Domain invariant of an Analysis Result, restricted to the enumerated
fields and 0..100 score ranges the spec names: keyTerms types, overallRisk,
risk severities, all confidence scores, totalScore, overallCompliance,
confidenceScore. -/
def validAnalysisB (a : ContractAnalysis) : Bool :=
  (match a.keyTerms with
   | JsonValue.arr ts => ts.all validKeyTermB
   | _ => false) &&
  validRiskAssessmentB a.riskAssessment &&
  (match getField a.complianceCheck "overallCompliance" with
   | some (JsonValue.num n) => 0 ≤ n ∧ n ≤ 100
   | _ => false) &&
  (match a.confidenceScore with
   | JsonValue.num n => 0 ≤ n ∧ n ≤ 100
   | _ => false)

/-- If dropWhile produced a non-empty list, its head fails the predicate. -/
theorem dropWhile_head_false {α : Type} (p : α → Bool) :
    ∀ (l : List α) (c : α) (rest : List α), l.dropWhile p = c :: rest → p c = false := by
  intro l
  induction l with
  | nil => intro c rest h; simp [List.dropWhile] at h
  | cons a as ih =>
    intro c rest h
    rw [List.dropWhile_cons] at h
    by_cases hp : p a
    · simp only [hp, if_true] at h
      exact ih c rest h
    · simp only [hp, if_false] at h
      cases h
      simp only [Bool.not_eq_true] at hp
      exact hp

/-- The documentId of any interpreter output is the empty string. -/
theorem interpretText_documentId (s now : String) : (interpretText s now).documentId = "" := by
  unfold interpretText
  split
  · split <;> rfl
  · rfl

/-- C2: on a raw model output where no JSON-like substring is found or where
the extracted substring fails to parse, the interpreter returns exactly the
fixed fallback analysis (key term of type other with value Analysis
completed and confidence 50, confidenceScore 50), and on every input it
returns either the fallback or the mapped analysis — no exception escapes. -/
theorem c2_fallback_on_unparseable_output (s now : String) :
    ((∀ t, extractJson s = some t → parseJson t = none) →
      interpretText s now = fallbackAnalysis now) ∧
    (interpretText s now = fallbackAnalysis now ∨
      ∃ t v, extractJson s = some t ∧ parseJson t = some v ∧
        interpretText s now = mapAnalysis v now) ∧
    (fallbackAnalysis now).confidenceScore = JsonValue.num 50 ∧
    (fallbackAnalysis now).keyTerms = JsonValue.arr [JsonValue.obj
      [("type", JsonValue.str "other"), ("value", JsonValue.str "Analysis completed"),
       ("confidence", JsonValue.num 50), ("location", JsonValue.str "Document")]] ∧
    (getField (fallbackAnalysis now).riskAssessment "overallRisk" = some (JsonValue.str "medium") ∧
     getField (fallbackAnalysis now).riskAssessment "totalScore" = some (JsonValue.num 50)) ∧
    getField (fallbackAnalysis now).complianceCheck "overallCompliance" = some (JsonValue.num 50) := by
  refine ⟨?_, ?_, rfl, rfl, ⟨rfl, rfl⟩, rfl⟩
  · intro h
    unfold interpretText
    split
    next t2 hx2 => simp only [h t2 hx2]
    next => rfl
  · unfold interpretText
    split
    next t2 hx2 =>
      split
      next v2 hp2 => exact Or.inr ⟨t2, v2, hx2, hp2, rfl⟩
      next => exact Or.inl rfl
    next => exact Or.inl rfl

/-- Witness for C2 at the concrete input "no braces at all". -/
theorem c2_witness :
    interpretText "no braces at all" "t0" = fallbackAnalysis "t0" :=
  (c2_fallback_on_unparseable_output "no braces at all" "t0").1 (fun _ h => nomatch h)

/-- C3 (amended): when extraction and parsing succeed, the interpreter maps
each top-level section independently, taking the parsed value when it is
present and truthy and the named default when it is absent or falsy —
absent, null, and any other falsy value (false, 0, the empty string) are all
replaced by the default. -/
theorem c3_amended_per_section_defaulting (s t now : String) (v : JsonValue)
    (hx : extractJson s = some t) (hp : parseJson t = some v) :
    interpretText s now = mapAnalysis v now ∧
    (mapAnalysis v now).keyTerms = jsorField v "keyTerms" (JsonValue.arr []) ∧
    (mapAnalysis v now).riskAssessment = jsorField v "riskAssessment" defaultRiskAssessment ∧
    (mapAnalysis v now).clauseAnalysis = jsorField v "clauseAnalysis" (JsonValue.arr []) ∧
    (mapAnalysis v now).complianceCheck = jsorField v "complianceCheck" defaultComplianceCheck ∧
    (mapAnalysis v now).executiveSummary = jsorField v "executiveSummary" defaultExecutiveSummary ∧
    (mapAnalysis v now).confidenceScore = jsorField v "confidenceScore" (JsonValue.num 75) ∧
    (∀ k d x, getField v k = some x → jsTruthy x = true → jsorField v k d = x) ∧
    (∀ k d, getField v k = none → jsorField v k d = d) ∧
    (∀ k d x, getField v k = some x → jsTruthy x = false → jsorField v k d = d) := by
  refine ⟨?_, rfl, rfl, rfl, rfl, rfl, rfl, ?_, ?_, ?_⟩
  · unfold interpretText
    rw [hx]
    simp only [hp]
  · intro k d x h ht
    unfold jsorField
    simp [h, ht]
  · intro k d h
    unfold jsorField
    rw [h]
  · intro k d x h ht
    unfold jsorField
    simp [h, ht]

/-- Concrete parse used by the C3 witness. -/
def c3wInput : String := "\x7b\"keyTerms\":[1],\"confidenceScore\":20\x7d"

/-- Parsed value of `c3wInput`. -/
def c3wVal : JsonValue :=
  JsonValue.obj [("keyTerms", JsonValue.arr [JsonValue.num 1]),
    ("confidenceScore", JsonValue.num 20)]

/-- Witness for C3 (amended) at a concrete two-section input. -/
theorem c3_witness :
    interpretText c3wInput "t0" = mapAnalysis c3wVal "t0" ∧
    (mapAnalysis c3wVal "t0").confidenceScore = jsorField c3wVal "confidenceScore" (JsonValue.num 75) :=
  ⟨(c3_amended_per_section_defaulting c3wInput c3wInput "t0" c3wVal rfl rfl).1,
   (c3_amended_per_section_defaulting c3wInput c3wInput "t0" c3wVal rfl rfl).2.2.2.2.2.2.1⟩

/-- All six sections present and non-null, with confidenceScore 0. -/
def c3Input : String :=
  "\x7b\"keyTerms\":[1],\"riskAssessment\":2,\"clauseAnalysis\":[3],\"complianceCheck\":4,\"executiveSummary\":5,\"confidenceScore\":0\x7d"

/-- Parsed value of `c3Input`. -/
def c3Val : JsonValue :=
  JsonValue.obj [("keyTerms", JsonValue.arr [JsonValue.num 1]),
    ("riskAssessment", JsonValue.num 2), ("clauseAnalysis", JsonValue.arr [JsonValue.num 3]),
    ("complianceCheck", JsonValue.num 4), ("executiveSummary", JsonValue.num 5),
    ("confidenceScore", JsonValue.num 0)]

/-- Counterexample to C3 as stated: in a response with all six sections
present and non-null, confidenceScore 0 is not mapped directly — the
interpreter substitutes the default 75, so interpretation is not direct
field mapping. -/
theorem c3_counterexample :
    extractJson c3Input = some c3Input ∧
    parseJson c3Input = some c3Val ∧
    getField c3Val "confidenceScore" = some (JsonValue.num 0) ∧
    (interpretText c3Input "t0").confidenceScore = JsonValue.num 75 ∧
    JsonValue.num 75 ≠ JsonValue.num 0 := by
  refine ⟨rfl, rfl, rfl, rfl, ?_⟩
  intro h
  simp only [JsonValue.num.injEq] at h
  exact absurd h (by norm_num)

/-- C4 (amended): the fallback analysis and the named per-section defaults
satisfy the domain invariant (enumerated fields in their declared domains,
scores in 0..100). -/
theorem c4_amended_fallback_and_defaults_valid (now : String) :
    validAnalysisB (fallbackAnalysis now) = true ∧
    validAnalysisB (mapAnalysis (JsonValue.obj []) now) = true :=
  ⟨rfl, rfl⟩

/-- A parsed response carrying an out-of-domain key-term type and an
out-of-range confidence. -/
def c4Input : String := "\x7b\"keyTerms\":[\x7b\"type\":\"banana\",\"confidence\":999\x7d]\x7d"

/-- Counterexample to C4 as stated: the interpreter propagates the
out-of-domain type "banana" and the out-of-range confidence 999 verbatim
into the Analysis Result instead of coercing or defaulting them. -/
theorem c4_counterexample :
    (interpretText c4Input "t0").keyTerms = JsonValue.arr [JsonValue.obj
      [("type", JsonValue.str "banana"), ("confidence", JsonValue.num 999)]] ∧
    validAnalysisB (interpretText c4Input "t0") = false :=
  ⟨rfl, rfl⟩

/-- C10: on every interpreter path — mapped, partially defaulted, or full
fallback — the produced Analysis Result has documentId equal to the empty
string; the model-client wrapper returns it unchanged, so what the handler
persists and returns carries an empty documentId. -/
theorem c10_documentId_never_populated (s now text : String) (v : JsonValue) (env : Env) :
    (interpretText s now).documentId = "" ∧
    (mapAnalysis v now).documentId = "" ∧
    (fallbackAnalysis now).documentId = "" ∧
    (∀ a, analyzeContractWithBedrock env text = Except.ok a → a.documentId = "") := by
  refine ⟨interpretText_documentId s now, rfl, rfl, ?_⟩
  intro a h
  unfold analyzeContractWithBedrock at h
  cases hb : env.bedrock (buildPrompt text) with
  | error e => rw [hb] at h; exact nomatch h
  | ok o =>
    rw [hb] at h
    cases o with
    | none =>
      injection h with h2
      rw [← h2]
      rfl
    | some t2 =>
      injection h with h2
      rw [← h2]
      exact interpretText_documentId t2 env.now

/-- Environment whose Bedrock call returns analysis text "z". -/
def c10wEnv : Env :=
  { table := []
    s3 := fun _ => Except.ok ""
    ocr := fun _ => Except.ok []
    bedrock := fun _ => Except.ok (some "z")
    updCompletedOk := true
    updFailedOk := true
    now := "t0" }

/-- Witness for C10: the model-client result at a concrete environment has
an empty documentId. -/
theorem c10_witness : (interpretText "z" "t0").documentId = "" :=
  (c10_documentId_never_populated "z" "t0" "doc" JsonValue.null c10wEnv).2.2.2
    (interpretText "z" "t0") rfl

/-- C6 (amended): the substring the interpreter hands to the JSON parser is
the greedy regex match — it begins at the first opening brace of the raw
text and ends at the last closing brace (not at the brace-depth-matching
one); when that substring fails to parse, the result is the fallback. -/
theorem greedy_slice_spec (l core : List Char)
    (hcore : core = ((l.dropWhile (· ≠ lbrace)).reverse.dropWhile (· ≠ rbrace)).reverse)
    (hne : core ≠ []) :
    ∃ pre post : List Char,
      l = pre ++ core ++ post ∧
      (∀ c ∈ pre, c ≠ lbrace) ∧
      (∀ c ∈ post, c ≠ rbrace) ∧
      core.head? = some lbrace ∧
      core.getLast? = some rbrace := by
  set frag := l.dropWhile (· ≠ lbrace) with hfrag
  set pre := l.takeWhile (· ≠ lbrace) with hpre
  set post := (frag.reverse.takeWhile (· ≠ rbrace)).reverse with hpost
  have hfragsplit : frag = core ++ post := by
    have h1 : frag.reverse.takeWhile (fun c => decide (c ≠ rbrace)) ++
        frag.reverse.dropWhile (fun c => decide (c ≠ rbrace)) = frag.reverse :=
      List.takeWhile_append_dropWhile _ _
    have h2 := congrArg List.reverse h1
    rw [List.reverse_append, List.reverse_reverse] at h2
    rw [hcore, hpost]
    exact h2.symm
  refine ⟨pre, post, ?_, ?_, ?_, ?_, ?_⟩
  · have h3 : pre ++ frag = l := List.takeWhile_append_dropWhile _ _
    rw [← h3, hfragsplit, List.append_assoc]
  · intro c hcmem
    have := List.mem_takeWhile_imp hcmem
    simpa using this
  · intro c hcmem
    rw [hpost, List.mem_reverse] at hcmem
    have := List.mem_takeWhile_imp hcmem
    simpa using this
  · obtain ⟨c0, rest0, hsplit⟩ := List.exists_cons_of_ne_nil hne
    have hfrag2 : l.dropWhile (fun c => decide (c ≠ lbrace)) = c0 :: (rest0 ++ post) := by
      rw [← hfrag, hfragsplit, hsplit]
      rfl
    have hc0 := dropWhile_head_false (fun c => decide (c ≠ lbrace)) l c0 _ hfrag2
    have hc0eq : c0 = lbrace := by simpa using hc0
    rw [hsplit, hc0eq]
    rfl
  · rw [List.getLast?_eq_head?_reverse]
    have hrev : core.reverse = frag.reverse.dropWhile (· ≠ rbrace) := by
      rw [hcore, List.reverse_reverse]
    have hne2 : frag.reverse.dropWhile (fun c => decide (c ≠ rbrace)) ≠ [] := by
      intro hnil
      rw [hcore] at hne
      rw [hnil] at hne
      exact hne rfl
    obtain ⟨c1, rest1, hsplit1⟩ := List.exists_cons_of_ne_nil hne2
    have hc1 := dropWhile_head_false (fun c => decide (c ≠ rbrace)) frag.reverse c1 _ hsplit1
    have hc1eq : c1 = rbrace := by simpa using hc1
    rw [hrev, hsplit1, hc1eq]
    rfl

/-- C6 (amended): the substring the interpreter hands to the JSON parser is
the greedy regex match — it begins at the first opening brace of the raw
text and ends at the last closing brace (not at the brace-depth-matching
one); when that substring fails to parse, the result is the fallback. -/
theorem c6_amended_greedy_extraction (s t : String) (h : extractJson s = some t) :
    ∃ pre post : List Char,
      s.toList = pre ++ t.toList ++ post ∧
      (∀ c ∈ pre, c ≠ lbrace) ∧
      (∀ c ∈ post, c ≠ rbrace) ∧
      t.toList.head? = some lbrace ∧
      t.toList.getLast? = some rbrace := by
  unfold extractJson at h
  by_cases hc : ((s.toList.dropWhile (· ≠ lbrace)).reverse.dropWhile (· ≠ rbrace)).reverse.isEmpty
  · rw [if_pos hc] at h
    exact nomatch h
  · rw [if_neg hc] at h
    injection h with ht
    have htl : t.toList = ((s.toList.dropWhile (· ≠ lbrace)).reverse.dropWhile (· ≠ rbrace)).reverse := by
      rw [← ht]
      rfl
    have hne : t.toList ≠ [] := by
      rw [htl]
      intro hnil
      rw [hnil] at hc
      exact hc rfl
    exact greedy_slice_spec s.toList t.toList htl hne

/-- Raw model text with two JSON objects separated by prose. -/
def c6Input : String := "a\x7b\"x\":1\x7d b \x7b\"y\":2\x7d"

/-- The greedy match inside `c6Input`: first opening brace to last closing
brace. -/
def c6Greedy : String := "\x7b\"x\":1\x7d b \x7b\"y\":2\x7d"

/-- The brace-depth match inside `c6Input`: first opening brace to its
matching closing brace. -/
def c6First : String := "\x7b\"x\":1\x7d"

/-- Counterexample to C6 as stated: on a response containing two objects,
the source hands the parser the greedy first-to-last-brace substring, not
the brace-depth match; the greedy substring fails to parse although the
brace-depth one parses, so the interpreter returns the fallback. -/
theorem c6_counterexample :
    extractJson c6Input = some c6Greedy ∧
    braceDepthExtract c6Input = some c6First ∧
    c6Greedy ≠ c6First ∧
    parseJson c6Greedy = none ∧
    parseJson c6First = some (JsonValue.obj [("x", JsonValue.num 1)]) ∧
    interpretText c6Input "t0" = fallbackAnalysis "t0" := by
  refine ⟨rfl, rfl, ?_, rfl, rfl, rfl⟩
  decide

/-- Witness for C6 (amended) at `c6Input`: the extracted substring is
flanked by a brace-free prefix and a close-brace-free suffix. -/
theorem c6_witness :
    extractJson c6Input = some c6Greedy ∧
    ∃ pre post : List Char,
      c6Input.toList = pre ++ c6Greedy.toList ++ post ∧
      (∀ c ∈ pre, c ≠ lbrace) ∧
      (∀ c ∈ post, c ≠ rbrace) ∧
      c6Greedy.toList.head? = some lbrace ∧
      c6Greedy.toList.getLast? = some rbrace :=
  ⟨rfl, c6_amended_greedy_extraction c6Input c6Greedy rfl⟩

/-- Mapping the per-key update over the table rewrites the looked-up value
of the updated key. -/
theorem lookup_map_update_eq (t : List (String × DocItem)) (id : String)
    (f : DocItem → DocItem) (v : DocItem) (h : t.lookup id = some v) :
    (t.map (fun p => if p.1 = id then (p.1, f p.2) else p)).lookup id = some (f v) := by
  induction t with
  | nil => simp [List.lookup] at h
  | cons a rest ih =>
    obtain ⟨k, w⟩ := a
    cases hbeq : (id == k) with
    | true =>
      have hke : id = k := eq_of_beq hbeq
      rw [List.lookup_cons, hbeq] at h
      injection h with hw
      subst hw
      subst hke
      simp [List.lookup_cons]
    | false =>
      rw [List.lookup_cons, hbeq] at h
      have hk : k ≠ id := fun he => (beq_eq_false_iff_ne.mp hbeq) he.symm
      simp only [List.map_cons, hk, if_false]
      rw [List.lookup_cons, hbeq]
      exact ih h

/-- Mapping the per-key update over the table leaves other keys unchanged. -/
theorem lookup_map_update_ne (t : List (String × DocItem)) (id id2 : String)
    (f : DocItem → DocItem) (h : id2 ≠ id) :
    (t.map (fun p => if p.1 = id then (p.1, f p.2) else p)).lookup id2 = t.lookup id2 := by
  induction t with
  | nil => rfl
  | cons a rest ih =>
    obtain ⟨k, w⟩ := a
    by_cases hk : k = id
    · subst hk
      have hk2 : (id2 == k) = false := beq_eq_false_iff_ne.mpr h
      simp only [List.map_cons, eq_self_iff_true, if_true]
      rw [List.lookup_cons, List.lookup_cons, hk2]
      exact ih
    · simp only [List.map_cons, hk, if_false]
      cases hbeq : (id2 == k) with
      | true => rw [List.lookup_cons, List.lookup_cons, hbeq]
      | false =>
        rw [List.lookup_cons, List.lookup_cons, hbeq]
        exact ih

/-- Appending a fresh binding: lookup of its key finds it when the key was
absent. -/
theorem lookup_append_single_eq (t : List (String × DocItem)) (id : String) (x : DocItem)
    (h : t.lookup id = none) :
    (t ++ [(id, x)]).lookup id = some x := by
  induction t with
  | nil => simp [List.lookup_cons]
  | cons a rest ih =>
    obtain ⟨k, w⟩ := a
    cases hbeq : (id == k) with
    | true =>
      rw [List.lookup_cons, hbeq] at h
      exact nomatch h
    | false =>
      rw [List.lookup_cons, hbeq] at h
      rw [List.cons_append, List.lookup_cons, hbeq]
      exact ih h

/-- Appending a fresh binding leaves other keys unchanged. -/
theorem lookup_append_single_ne (t : List (String × DocItem)) (id id2 : String) (x : DocItem)
    (h : id2 ≠ id) :
    (t ++ [(id, x)]).lookup id2 = t.lookup id2 := by
  induction t with
  | nil =>
    rw [List.nil_append, List.lookup_cons, beq_eq_false_iff_ne.mpr h]
  | cons a rest ih =>
    obtain ⟨k, w⟩ := a
    cases hbeq : (id2 == k) with
    | true => rw [List.cons_append, List.lookup_cons, List.lookup_cons, hbeq]
    | false =>
      rw [List.cons_append, List.lookup_cons, List.lookup_cons, hbeq]
      exact ih

/-- Looking up the updated key after `updateTable` yields the updated item
(applied to the previous item, or to a fresh empty item on upsert). -/
theorem lookup_updateTable_self (t : List (String × DocItem)) (id : String) (f : DocItem → DocItem) :
    (updateTable t id f).lookup id = some (f ((t.lookup id).getD {})) := by
  unfold updateTable
  cases hl : t.lookup id with
  | some v =>
    simp only [hl, Option.isSome_some, if_true, Option.getD_some]
    exact lookup_map_update_eq t id f v hl
  | none =>
    simp only [hl, Option.isSome_none, Bool.false_eq_true, if_false, Option.getD_none]
    exact lookup_append_single_eq t id (f {}) hl

/-- Looking up any other key after `updateTable` is unchanged. -/
theorem lookup_updateTable_ne (t : List (String × DocItem)) (id id2 : String)
    (f : DocItem → DocItem) (h : id2 ≠ id) :
    (updateTable t id f).lookup id2 = t.lookup id2 := by
  unfold updateTable
  by_cases hs : (t.lookup id).isSome
  · simp only [hs, if_true]
    exact lookup_map_update_ne t id id2 f h
  · simp only [hs, if_false]
    exact lookup_append_single_ne t id id2 (f {}) h

/-- The catch block either leaves the table unchanged or applies the
failed-status update to a single key. -/
theorem catchPath_snd (env : Env) (body : Option String) :
    (catchPath env body).2 = env.table ∨
    ∃ id, (catchPath env body).2 = updateTable env.table id setFailed := by
  unfold catchPath
  repeat' split
  all_goals first
    | exact Or.inl rfl
    | exact Or.inr ⟨_, rfl⟩

/-- A handler invocation leaves the table unchanged, applies the
failed-status update to one key, or applies the completed update to one key. -/
theorem handler_snd (env : Env) (body : Option String) :
    (handler env body).2 = env.table ∨
    (∃ id, (handler env body).2 = updateTable env.table id setFailed) ∨
    (∃ id a, (handler env body).2 = updateTable env.table id (setCompleted a env.now)) := by
  unfold handler
  repeat' split
  all_goals first
    | exact Or.inl rfl
    | exact Or.inr (Or.inl ⟨_, rfl⟩)
    | exact Or.inr (Or.inr ⟨_, _, rfl⟩)
    | exact (catchPath_snd env body).elim Or.inl (fun h => Or.inr (Or.inl h))

/-- C1 (amended): after any invocation, a record with status completed has a
non-null analysis; and a record's analysis is unchanged from before the
invocation unless this invocation completed it — in particular a failed
invocation never writes or clears the analysis field, so a record that
never completed has none, while a failed re-invocation of a previously
completed document keeps the stale analysis. -/
theorem c1_amended_completed_has_analysis (env : Env) (body : Option String)
    (hInv : ∀ id r, env.table.lookup id = some r →
      r.status = some "completed" → r.analysis.isSome = true) :
    ∀ id r, ((handler env body).2).lookup id = some r →
      (r.status = some "completed" → r.analysis.isSome = true) ∧
      ((env.table.lookup id).bind DocItem.analysis = r.analysis ∨
        (r.status = some "completed" ∧ r.analysis.isSome = true)) := by
  intro id r hr
  rcases handler_snd env body with h | ⟨idX, h⟩ | ⟨idX, a, h⟩
  · rw [h] at hr
    refine ⟨hInv id r hr, Or.inl ?_⟩
    rw [hr]
    rfl
  · rw [h] at hr
    by_cases hid : id = idX
    · subst hid
      rw [lookup_updateTable_self] at hr
      injection hr with hr2
      constructor
      · intro hc
        rw [← hr2] at hc
        have hstat : (setFailed ((env.table.lookup id).getD {})).status = some "failed" := rfl
        rw [hstat] at hc
        injection hc with hlit
        exact absurd hlit (by decide)
      · left
        rw [← hr2]
        cases env.table.lookup id with
        | none => rfl
        | some w => rfl
    · rw [lookup_updateTable_ne _ _ _ _ hid] at hr
      refine ⟨hInv id r hr, Or.inl ?_⟩
      rw [hr]
      rfl
  · rw [h] at hr
    by_cases hid : id = idX
    · subst hid
      rw [lookup_updateTable_self] at hr
      injection hr with hr2
      refine ⟨fun _ => ?_, Or.inr ⟨?_, ?_⟩⟩
      · rw [← hr2]; rfl
      · rw [← hr2]; rfl
      · rw [← hr2]; rfl
    · rw [lookup_updateTable_ne _ _ _ _ hid] at hr
      refine ⟨hInv id r hr, Or.inl ?_⟩
      rw [hr]
      rfl

/-- Fresh processing document record used by the concrete scenarios. -/
def wDoc : DocItem :=
  { contentType := some "text/plain"
    s3Key := some "k"
    status := some "processing" }

/-- Environment of the concrete scenarios: one processing document, all
external calls succeeding, model output with no JSON substring. -/
def wEnv : Env :=
  { table := [("doc1", wDoc)]
    s3 := fun _ => Except.ok "Hello"
    ocr := fun _ => Except.ok []
    bedrock := fun _ => Except.ok (some "no json here")
    updCompletedOk := true
    updFailedOk := true
    now := "t1" }

/-- Request body naming doc1. -/
def wBody : String := "\x7b\"documentId\":\"doc1\"\x7d"

/-- Parsed value of `wBody`. -/
def wVal : JsonValue := JsonValue.obj [("documentId", JsonValue.str "doc1")]

/-- The record doc1 is left at by a successful first invocation. -/
def wCompletedItem : DocItem :=
  { contentType := some "text/plain"
    s3Key := some "k"
    status := some "completed"
    analysis := some (fallbackAnalysis "t1")
    processedAt := some "t1" }

/-- Witness for C1 (amended): concrete first invocation, completed record
with non-null analysis. -/
theorem c1_witness :
    (handler wEnv (some wBody)).2.lookup "doc1" = some wCompletedItem ∧
    ((wCompletedItem.status = some "completed" → wCompletedItem.analysis.isSome = true) ∧
      ((wEnv.table.lookup "doc1").bind DocItem.analysis = wCompletedItem.analysis ∨
        (wCompletedItem.status = some "completed" ∧ wCompletedItem.analysis.isSome = true))) := by
  refine ⟨rfl, ?_⟩
  refine c1_amended_completed_has_analysis wEnv (some wBody) ?_ "doc1" wCompletedItem rfl
  intro id r hr hc
  have hr2 : List.lookup id [("doc1", wDoc)] = some r := hr
  rw [List.lookup_cons] at hr2
  cases hb : (id == "doc1") with
  | true =>
    rw [hb] at hr2
    injection hr2 with h2
    rw [← h2] at hc
    have hst : wDoc.status = some "processing" := rfl
    rw [hst] at hc
    injection hc with hlit
    exact absurd hlit (by decide)
  | false =>
    rw [hb] at hr2
    exact nomatch hr2

/-- Second-run environment: the table left by the successful first
invocation, with the model call now failing. -/
def c1Env2 : Env :=
  { wEnv with
    table := (handler wEnv (some wBody)).2
    bedrock := fun _ => Except.error ()
    now := "t2" }

/-- The record doc1 is left at by the failed re-invocation. -/
def c1FailedItem : DocItem :=
  { contentType := some "text/plain"
    s3Key := some "k"
    status := some "failed"
    analysis := some (fallbackAnalysis "t1")
    processedAt := some "t1" }

/-- Counterexample to C1 as stated: re-invoking a completed document under a
model failure sets status failed but leaves the stale analysis in place, so
a failed record can carry an analysis field. -/
theorem c1_counterexample :
    (handler c1Env2 (some wBody)).2.lookup "doc1" = some c1FailedItem ∧
    c1FailedItem.status = some "failed" ∧
    c1FailedItem.analysis = some (fallbackAnalysis "t1") ∧
    c1FailedItem.analysis ≠ none := by
  refine ⟨rfl, rfl, rfl, ?_⟩
  intro h
  exact nomatch h

/-- Reduction of the catch block when the body re-parses to an object with a
truthy string documentId: the failed-status write is attempted — returning
the generic 500 if it succeeds, escaping as an exception if it fails. -/
theorem catchPath_found (env : Env) (s id : String) (v : JsonValue)
    (hs : s ≠ "") (hv : parseJson s = some v)
    (hd : getField v "documentId" = some (JsonValue.str id)) (hid : id ≠ "") :
    catchPath env (some s) =
      if env.updFailedOk then
        (Outcome.respond genericFailure, updateTable env.table id setFailed)
      else (Outcome.thrown, env.table) := by
  simp only [catchPath]
  rw [if_neg hs, hv]
  cases v with
  | obj fields =>
    simp only [hd]
    have ht : jsTruthy (JsonValue.str id) = true := by
      simp [jsTruthy, hid]
    simp only [ht, if_true]
  | null => exact nomatch hd
  | bool b => exact nomatch hd
  | num n => exact nomatch hd
  | str s2 => exact nomatch hd
  | arr xs => exact nomatch hd

/-- Reduction of the handler up to the document lookup, when the request
body parses to an object carrying a truthy string documentId. -/
theorem handler_parses (env : Env) (s id : String) (v : JsonValue)
    (hs : s ≠ "") (hv : parseJson s = some v)
    (hd : getField v "documentId" = some (JsonValue.str id)) (hid : id ≠ "") :
    handler env (some s) =
      match env.table.lookup id with
      | none => (Outcome.respond notFoundFailure, env.table)
      | some document =>
        match resolveText document env with
        | Except.error _ => catchPath env (some s)
        | Except.ok (text, _) =>
          match analyzeContractWithBedrock env text with
          | Except.error _ => catchPath env (some s)
          | Except.ok analysis =>
            if env.updCompletedOk then
              (Outcome.respond (successResult analysis),
                updateTable env.table id (setCompleted analysis env.now))
            else catchPath env (some s) := by
  unfold handler
  have hraw : rawBody (some s) = s := by
    simp only [rawBody]
    rw [if_neg hs]
  rw [hraw, hv]
  cases v with
  | obj fields =>
    simp only [hd]
    have ht : jsTruthy (JsonValue.str id) = true := by
      simp [jsTruthy, hid]
    simp only [Option.getD_some, ht, if_true]
  | null => exact nomatch hd
  | bool b => exact nomatch hd
  | num n => exact nomatch hd
  | str s2 => exact nomatch hd
  | arr xs => exact nomatch hd

/-- C7: invoking the pipeline with a documentId absent from the store
returns the 404 not-found response and performs no writes — the table is
returned unchanged. -/
theorem c7_notfound_no_writes (env : Env) (s id : String) (v : JsonValue)
    (hs : s ≠ "") (hv : parseJson s = some v)
    (hd : getField v "documentId" = some (JsonValue.str id)) (hid : id ≠ "")
    (hmiss : env.table.lookup id = none) :
    handler env (some s) = (Outcome.respond notFoundFailure, env.table) := by
  rw [handler_parses env s id v hs hv hd hid]
  simp only [hmiss]

/-- Request body naming an id absent from the store. -/
def c7Body : String := "\x7b\"documentId\":\"nope\"\x7d"

/-- Witness for C7 at a concrete unknown id. -/
theorem c7_witness :
    handler wEnv (some c7Body) = (Outcome.respond notFoundFailure, wEnv.table) :=
  c7_notfound_no_writes wEnv c7Body "nope" (JsonValue.obj [("documentId", JsonValue.str "nope")])
    (by decide) rfl rfl (by decide) rfl

/-- C5 (amended): an extraction failure, a model-invocation failure, and a
persistence failure at the final completed write all route to the same
top-level catch handler, which attempts to persist status failed and then
returns the generic failure response; on a final-write failure the record is
therefore set to failed when that second write succeeds (it is not left at
processing), and only when the second write also fails does the record stay
at processing — with the exception escaping the handler rather than a
structured error being returned. -/
theorem c5_amended_catch_retrosets_failed (env : Env) (s id : String) (v : JsonValue)
    (document : DocItem)
    (hs : s ≠ "") (hv : parseJson s = some v)
    (hd : getField v "documentId" = some (JsonValue.str id)) (hid : id ≠ "")
    (hdoc : env.table.lookup id = some document) :
    (resolveText document env = Except.error () →
      handler env (some s) = catchPath env (some s)) ∧
    (∀ text flag, resolveText document env = Except.ok (text, flag) →
      analyzeContractWithBedrock env text = Except.error () →
      handler env (some s) = catchPath env (some s)) ∧
    (∀ text flag a, resolveText document env = Except.ok (text, flag) →
      analyzeContractWithBedrock env text = Except.ok a →
      env.updCompletedOk = false →
      handler env (some s) = catchPath env (some s)) ∧
    catchPath env (some s) =
      (if env.updFailedOk then
        (Outcome.respond genericFailure, updateTable env.table id setFailed)
      else (Outcome.thrown, env.table)) := by
  have hp := handler_parses env s id v hs hv hd hid
  refine ⟨?_, ?_, ?_, catchPath_found env s id v hs hv hd hid⟩
  · intro hres
    rw [hp]
    simp only [hdoc, hres]
  · intro text flag hres hmod
    rw [hp]
    simp only [hdoc, hres, hmod]
  · intro text flag a hres hmod hupd
    rw [hp]
    simp only [hdoc, hres, hmod, hupd, Bool.false_eq_true, if_false]

/-- Environment in which the final completed write fails but the
failed-status write succeeds. -/
def c5Env : Env :=
  { wEnv with updCompletedOk := false }

/-- The record doc1 ends at after the persistence-failure invocation. -/
def c5FailedItem : DocItem :=
  { contentType := some "text/plain"
    s3Key := some "k"
    status := some "failed" }

/-- Counterexample to C5 as stated: when the final completed write fails,
the catch handler does retro-set status to failed (the record does not
remain at processing), and the caller receives the generic 500 failure, not
a distinct persistence error. -/
theorem c5_counterexample :
    (handler c5Env (some wBody)).1 = Outcome.respond genericFailure ∧
    (handler c5Env (some wBody)).2.lookup "doc1" = some c5FailedItem ∧
    c5FailedItem.status = some "failed" ∧
    some "failed" ≠ (some "processing" : Option String) := by
  refine ⟨rfl, rfl, rfl, ?_⟩
  intro h
  injection h with hlit
  exact absurd hlit (by decide)

/-- Witness for C5 (amended) at the concrete persistence-failure scenario. -/
theorem c5_witness :
    handler c5Env (some wBody) =
      (Outcome.respond genericFailure, updateTable c5Env.table "doc1" setFailed) := by
  have h := c5_amended_catch_retrosets_failed c5Env wBody "doc1" wVal wDoc
    (by decide) rfl rfl (by decide) rfl
  rw [h.2.2.1 "Hello" false (fallbackAnalysis "t1") rfl rfl rfl, h.2.2.2]
  rfl

/-- C8: the Text Source Resolver reads and decodes the stored object
directly when the content type is text/plain — independently of the OCR
oracle, with the OCR-called flag false — and otherwise invokes the OCR
service and joins its LINE blocks with newlines, an empty block list giving
the empty string rather than an error. -/
theorem c8_resolver_policy (env : Env) (d : DocItem) (key : String)
    (hk : d.s3Key = some key) :
    (d.contentType = some "text/plain" →
      resolveText d env = (env.s3 key).map (fun t => (t, false)) ∧
      ∀ ocr2, resolveText d { env with ocr := ocr2 } = resolveText d env) ∧
    (d.contentType ≠ some "text/plain" →
      resolveText d env = (env.ocr key).map (fun bs => (joinLineBlocks bs, true))) ∧
    joinLineBlocks [] = "" := by
  refine ⟨?_, ?_, rfl⟩
  · intro hct
    constructor
    · simp only [resolveText, hk]
      rw [if_pos hct]
    · intro ocr2
      simp only [resolveText, hk]
      rw [if_pos hct, if_pos hct]
  · intro hct
    simp only [resolveText, hk]
    rw [if_neg hct]

/-- Witness for C8: extracting the plain-text document with content "Hello"
yields "Hello" with the OCR flag false. -/
theorem c8_witness :
    resolveText wDoc wEnv = Except.ok ("Hello", false) ∧
    wDoc.contentType = some "text/plain" := by
  refine ⟨?_, rfl⟩
  have h := (c8_resolver_policy wEnv wDoc "k" rfl).1 rfl
  rw [h.1]
  rfl

/-- C9 (code evaluated at the failing input): a malformed request body lands
in the catch block, which re-parses the malformed body and throws again —
the exception escapes the handler and no structured error response is
returned to the caller. -/
theorem c9_malformed_body_escapes :
    parseJson "\x7b" = none ∧
    handler wEnv (some "\x7b") = (Outcome.thrown, wEnv.table) ∧
    (∀ r, Outcome.thrown ≠ Outcome.respond r) := by
  refine ⟨rfl, rfl, ?_⟩
  intro r h
  exact nomatch h

end DocAnalyzer
